import Mathlib

/-!
Verification development for the "SmartInterview" browser interview copilot.

The definitions below are shallow embeddings of the TypeScript sources:
  * `src/services/configService.ts`  — provider/user/log store (`ConfigService`);
  * `src/services/geminiService.ts`  and the variant in `src/unnamed/part_001`
    — provider selection (`getClient`) and error formatting;
  * `src/components/LiveSession.tsx` — transcript aggregation (`addMessage`,
    `finalizeLastMessage`, the `onMessage` callback), audio playback
    scheduling (`playAudioChunk`), pause gating (`togglePause`,
    `onaudioprocess`) and teardown (`stopSession`).

JavaScript in-place mutation is modelled by explicit state passing; the
nondeterministic identifiers built from `Date.now()` / `Math.random()` are
modelled by an explicit `now : Nat` argument (the random id component plays
no role in any verified property and is omitted).
-/

/-- Embedding of the `AIProvider` interface of `src/services/configService.ts`.
`priority` is a JS number used only through comparison and is modelled as
`Int`; `usageCount` is a non-negative counter, modelled as `Nat`. The
`provider` kind field is kept as a plain string. -/
structure AIProvider where
  id : String
  name : String
  provider : String
  apiKey : String
  modelId : String
  isActive : Bool
  priority : Int
  dailyLimit : Int
  usageCount : Nat
deriving DecidableEq, Repr

/-- Embedding of the `User` interface of `src/services/configService.ts`.
`status` is the string union `'active' | 'suspended'`. -/
structure User where
  id : String
  name : String
  email : String
  status : String
  lastActive : Int
  credits : Int
deriving DecidableEq, Repr

/-- Embedding of the `SystemLog` interface of `src/services/configService.ts`.
The JS `id` field (`Date.now().toString() + Math.random()`) is a random
identifier and is not modelled; `timestamp` is the `Date.now()` input. -/
structure SystemLog where
  timestamp : Nat
  action : String
  details : String
  status : String
deriving DecidableEq, Repr

/-- The mutable fields of the `ConfigService` class (`providers`, `users`,
`logs`).  `localStorage` persistence (`persist`) writes exactly the
`providers` field, so the field doubles as the persisted store. -/
structure ConfigState where
  providers : List AIProvider
  users : List User
  logs : List SystemLog
deriving DecidableEq, Repr

/-- The comparator `(a, b) => a.priority - b.priority` of
`ConfigService.getProviders`, as the ordering relation it induces. -/
def prioLE (a b : AIProvider) : Prop := a.priority ≤ b.priority

instance : DecidableRel prioLE := fun a b =>
  inferInstanceAs (Decidable (a.priority ≤ b.priority))

instance : IsTotal AIProvider prioLE :=
  ⟨fun a b => Int.le_total a.priority b.priority⟩

instance : IsTrans AIProvider prioLE :=
  ⟨fun _ _ _ hab hbc => Int.le_trans hab hbc⟩

/-- Embedding of `this.providers.sort((a, b) => a.priority - b.priority)`
from `ConfigService.getProviders`.  `Array.prototype.sort` is a stable sort
consistent with the comparator, and any two stable sorts for the same total
preorder agree, so insertion sort is an exact model. -/
def sortByPriority (ps : List AIProvider) : List AIProvider :=
  List.insertionSort prioLE ps

/-- Embedding of `ConfigService.getProviders`: returns the sorted list and,
because `Array.prototype.sort` sorts in place, also the updated state. -/
def getProviders (s : ConfigState) : List AIProvider × ConfigState :=
  let sorted := sortByPriority s.providers
  (sorted, { s with providers := sorted })

/-- Embedding of `ConfigService.getActiveProviders`:
`this.getProviders().filter(p => p.isActive)`. -/
def getActiveProviders (s : ConfigState) : List AIProvider × ConfigState :=
  let r := getProviders s
  (r.1.filter (·.isActive), r.2)

/-- Embedding of `ConfigService.logAction`: builds the log entry, prepends it
(`unshift`), and drops the oldest entry (`pop`) when the list exceeds 100. -/
def logAction (s : ConfigState) (now : Nat) (actor details status : String) :
    ConfigState :=
  let log : SystemLog :=
    { timestamp := now, action := actor, details := details, status := status }
  let l := log :: s.logs
  { s with logs := if l.length > 100 then l.dropLast else l }

/-- The `findIndex`-and-replace-or-push step of `ConfigService.saveProvider`:
replaces the first entry whose `id` matches, or pushes the provider at the
end when none matches. -/
def saveProviderList : List AIProvider → AIProvider → List AIProvider
  | [], p => [p]
  | q :: qs, p => if q.id = p.id then p :: qs else q :: saveProviderList qs p

/-- Embedding of `ConfigService.saveProvider`: replace-or-push, `persist()`
(the state itself is the persisted store), then `logAction`. -/
def saveProvider (s : ConfigState) (now : Nat) (p : AIProvider) : ConfigState :=
  logAction { s with providers := saveProviderList s.providers p } now
    "Admin" ("Saved provider " ++ p.name) "success"

/-- Embedding of `ConfigService.deleteProvider`. -/
def deleteProvider (s : ConfigState) (now : Nat) (pid : String) : ConfigState :=
  logAction { s with providers := s.providers.filter (fun p => p.id ≠ pid) } now
    "Admin" ("Deleted provider " ++ pid) "success"

/-- The in-place status flip of `ConfigService.toggleUserStatus` applied to
the first user whose `id` matches (`Array.prototype.find`). -/
def updateFirstUser : List User → String → String → List User
  | [], _, _ => []
  | u :: us, uid, st =>
      if u.id = uid then { u with status := st } :: us
      else u :: updateFirstUser us uid st

/-- Embedding of `ConfigService.toggleUserStatus`: when the user is found,
flip `active`/`suspended` and log; otherwise do nothing. -/
def toggleUserStatus (s : ConfigState) (now : Nat) (uid : String) : ConfigState :=
  match s.users.find? (fun u => u.id = uid) with
  | none => s
  | some u =>
      let newStatus := if u.status = "active" then "suspended" else "active"
      logAction { s with users := updateFirstUser s.users uid newStatus } now
        "Admin"
        ("Changed user status for " ++ u.email ++ " to " ++ newStatus)
        "success"

/-- The `ConfigService` constructor: providers from storage or the defaults,
mock users, empty log list, then `logAction('System', 'ConfigService
initialized')`. -/
def initConfig (providers : List AIProvider) (users : List User) (now : Nat) :
    ConfigState :=
  logAction { providers := providers, users := users, logs := [] } now
    "System" "ConfigService initialized" "success"

/-- Model of the JavaScript `String.prototype.trim` builtin used by
`getClient` (`primary.apiKey.trim()`): strip leading and trailing
whitespace. -/
def jsTrim (s : String) : String :=
  ⟨(((s.data.dropWhile Char.isWhitespace).reverse.dropWhile
      Char.isWhitespace).reverse : List Char)⟩

/-- The two failure kinds of `getClient` in the spec's taxonomy
(`ProviderError`): no active provider configured, or the chosen provider's
key is empty after trimming. -/
inductive GetClientError where
  | noActiveProvider
  | missingCredential
deriving DecidableEq, Repr

/-- The value `getClient` resolves with: the credential and model used to
build the `GoogleGenAI` client. -/
structure ClientInfo where
  apiKey : String
  modelId : String
deriving DecidableEq, Repr

/-- The in-place `primary.usageCount++` of `getClient`.  `primary` aliases
the first active element of the (sorted, in place) provider array, so the
increment lands on that element. -/
def bumpFirstActive : List AIProvider → List AIProvider
  | [] => []
  | p :: ps =>
      if p.isActive then { p with usageCount := p.usageCount + 1 } :: ps
      else p :: bumpFirstActive ps

namespace ServicesGemini

/-- Embedding of `GeminiService.getClient` from
`src/services/geminiService.ts` (lines 10 to 28): take the active providers
(sorting the store in place), fail when none is active, otherwise pick the
first, increment its usage counter in place and persist it through
`saveProvider`.  This variant performs no API-key check. -/
def getClient (s : ConfigState) (now : Nat) :
    Except GetClientError ClientInfo × ConfigState :=
  let s1 : ConfigState := { s with providers := sortByPriority s.providers }
  match s1.providers.filter (·.isActive) with
  | [] => (.error .noActiveProvider, s1)
  | primary :: _ =>
      let primary' := { primary with usageCount := primary.usageCount + 1 }
      let s2 := { s1 with providers := bumpFirstActive s1.providers }
      let s3 := saveProvider s2 now primary'
      (.ok { apiKey := primary.apiKey, modelId := primary.modelId }, s3)

/-- The exact error message thrown at each failure site of this variant
(`missingCredential` is unreachable here: this variant has no key check). -/
def errorText : GetClientError → String
  | .noActiveProvider => "No active AI providers configured. Please contact Admin."
  | .missingCredential => ""

end ServicesGemini

namespace Part001

/-- Embedding of `GeminiService.getClient` from the variant source file
`src/unnamed/part_001` (lines 57 to 79): as `ServicesGemini.getClient`, but
the chosen provider is additionally rejected when its API key is empty or
whitespace-only (`primary.apiKey.trim() === ''`, modelled by `jsTrim`), before
any counter
mutation. -/
def getClient (s : ConfigState) (now : Nat) :
    Except GetClientError ClientInfo × ConfigState :=
  let s1 : ConfigState := { s with providers := sortByPriority s.providers }
  match s1.providers.filter (·.isActive) with
  | [] => (.error .noActiveProvider, s1)
  | primary :: _ =>
      if jsTrim primary.apiKey = "" then (.error .missingCredential, s1)
      else
        let primary' := { primary with usageCount := primary.usageCount + 1 }
        let s2 := { s1 with providers := bumpFirstActive s1.providers }
        let s3 := saveProvider s2 now primary'
        (.ok { apiKey := primary.apiKey, modelId := primary.modelId }, s3)

/-- The exact error message thrown at each failure site of this variant. -/
def errorText : GetClientError → String
  | .noActiveProvider =>
      "No active AI providers configured. Please go to Admin > Providers and add a valid API Key."
  | .missingCredential =>
      "The active provider has no API Key. Please check your configuration."

end Part001

/-- Modelled from the spec: the provider §4.1 says `selectProvider` must
return — "the one with numerically lowest priority value (ties broken by
original registration order — stable sort)".  Scanning from the left
(registration order), an element replaces the best-so-far only when it is
active and its priority is less than or equal (so the earlier of two tied
providers wins). -/
def minActive? : List AIProvider → Option AIProvider
  | [] => none
  | p :: ps =>
      let rest := minActive? ps
      if p.isActive then
        match rest with
        | none => some p
        | some q => if p.priority ≤ q.priority then some p else some q
      else rest

/-- Embedding of the `MessageType` enum from `src/types` as used by
`LiveSession` (`USER`, `AI`, `SYSTEM`). -/
inductive MessageType where
  | user
  | ai
  | system
deriving DecidableEq, Repr

/-- Embedding of the `ChatMessage` interface.  The random `id` string is not
modelled; `timestamp` is the `Date.now()` at creation. -/
structure ChatMessage where
  type : MessageType
  content : String
  timestamp : Nat
  isPartial : Bool
deriving DecidableEq, Repr

/-- Embedding of `addMessage` from `src/components/LiveSession.tsx` (lines 46
to 67): when the last message is partial and of the same type, extend it in
place by appending the fragment and overwrite its partial flag; otherwise
append a fresh message. -/
def addMessage (msgs : List ChatMessage) (now : Nat) (content : String)
    (type : MessageType) (isPartial : Bool) : List ChatMessage :=
  match msgs.getLast? with
  | some last =>
      if last.isPartial && last.type == type then
        msgs.dropLast ++
          [{ last with content := last.content ++ content, isPartial := isPartial }]
      else
        msgs ++ [{ type := type, content := content, timestamp := now,
                   isPartial := isPartial }]
  | none =>
      msgs ++ [{ type := type, content := content, timestamp := now,
                 isPartial := isPartial }]

/-- Embedding of `finalizeLastMessage` from `src/components/LiveSession.tsx`
(lines 69 to 81): clear the partial flag of the last message when its type
matches, leaving its content untouched; otherwise do nothing. -/
def finalizeLastMessage (msgs : List ChatMessage) (type : MessageType) :
    List ChatMessage :=
  match msgs.getLast? with
  | some last =>
      if last.type == type then
        msgs.dropLast ++ [{ last with isPartial := false }]
      else msgs
  | none => msgs

/-- Embedding of the `onMessage` callback of `LiveSession.startSession`
(lines 193 to 198): a truthy `text` (non-null and non-empty, per JS
truthiness) is added as a user or AI message whose partial flag is the
negation of `isComplete`; otherwise a completion marker finalizes the last
AI message. -/
def onMessage (msgs : List ChatMessage) (now : Nat) (text : Option String)
    (isUser : Bool) (isComplete : Bool) : List ChatMessage :=
  match text with
  | some t =>
      if t = "" then
        if isComplete then finalizeLastMessage msgs .ai else msgs
      else
        addMessage msgs now t (if isUser then .user else .ai) (!isComplete)
  | none =>
      if isComplete then finalizeLastMessage msgs .ai else msgs

/-- The four release effects performed by `stopSession`
(`src/components/LiveSession.tsx` lines 257 to 276): signal disconnect on
the live connection, stop every microphone track, close the input
`AudioContext`, close the output `AudioContext`. -/
inductive ReleaseAction where
  | disconnect
  | stopTracks
  | closeInputCtx
  | closeOutputCtx
deriving DecidableEq, Repr

/-- The mutable reference cells of the `LiveSession` component that the
session lifecycle touches.  A `…Set` flag models whether the corresponding
`useRef` currently holds a non-null value. -/
structure SessionRefs where
  disconnectSet : Bool
  streamSet : Bool
  audioCtxSet : Bool
  outputCtxSet : Bool
  processorSet : Bool
  sendAudioSet : Bool
  isActive : Bool
  isPaused : Bool
  isCriticalError : Bool
  errorMsg : Option String
  nextStartTime : ℚ
  messages : List ChatMessage
deriving DecidableEq, Repr

/-- The pristine state of a freshly mounted `LiveSession`: every ref null,
flags false, `nextStartTimeRef` zero. -/
def initialRefs : SessionRefs :=
  { disconnectSet := false, streamSet := false, audioCtxSet := false,
    outputCtxSet := false, processorSet := false, sendAudioSet := false,
    isActive := false, isPaused := false, isCriticalError := false,
    errorMsg := none, nextStartTime := 0, messages := [] }

/-- Embedding of `stopSession` (`src/components/LiveSession.tsx` lines 257
to 276).  Each release runs only when its ref is non-null, and the emitted
actions are returned in program order.  Afterwards the code nulls only
`outputAudioCtxRef`, `sendAudioRef` and `processorRef` and clears the
active/paused flags; `disconnectRef`, `streamRef`, `audioContextRef` and
`nextStartTimeRef` are left as they were. -/
def stopSession (s : SessionRefs) : List ReleaseAction × SessionRefs :=
  let acts :=
    (if s.disconnectSet then [ReleaseAction.disconnect] else []) ++
    (if s.streamSet then [ReleaseAction.stopTracks] else []) ++
    (if s.audioCtxSet then [ReleaseAction.closeInputCtx] else []) ++
    (if s.outputCtxSet then [ReleaseAction.closeOutputCtx] else [])
  (acts,
   { s with isActive := false, isPaused := false, sendAudioSet := false,
            processorSet := false, outputCtxSet := false })

/-- Embedding of the `onError` callback of `startSession` (lines 203 to
207): mark the error critical, record the formatted message, and tear down
via `stopSession`. -/
def onErrorHandler (s : SessionRefs) (msg : String) :
    List ReleaseAction × SessionRefs :=
  stopSession { s with isCriticalError := true, errorMsg := some msg }

/-- Embedding of the `onClose` callback of `startSession` (lines 208 to
211): clear the active flag and append a system message — no resource is
released on this path. -/
def onCloseHandler (s : SessionRefs) (now : Nat) : SessionRefs :=
  { s with isActive := false,
           messages := addMessage s.messages now "Session ended." .system false }

/-- Embedding of the `catch` branch of `startSession` (lines 233 to 254):
record the mapped message and criticality, then tear down via
`stopSession`. -/
def startCatchHandler (s : SessionRefs) (msg : String) (critical : Bool) :
    List ReleaseAction × SessionRefs :=
  stopSession { s with isCriticalError := critical, errorMsg := some msg }

/-- Embedding of `togglePause` (lines 124 to 129): flip the paused flag
(state and ref together) and append the corresponding system message. -/
def togglePause (s : SessionRefs) (now : Nat) : SessionRefs :=
  let newState := !s.isPaused
  { s with isPaused := newState,
           messages := addMessage s.messages now
             (if newState then "Microphone paused." else "Microphone resumed.")
             .system false }

/-- Embedding of the `onaudioprocess` handler (lines 220 to 228): while
paused the captured frame is discarded; otherwise it is forwarded to
`sendAudioRef` when that ref is non-null.  The result is `some frame` when a
`sendRealtimeInput` call happens and `none` otherwise. -/
def onaudioprocess (s : SessionRefs) (frame : List ℚ) : Option (List ℚ) :=
  if s.isPaused then none
  else if s.sendAudioSet then some frame else none

/-- The playback scheduling step of `playAudioChunk` (lines 115 to 117):
`startTime = Math.max(ctx.currentTime, nextStartTimeRef.current)`, the chunk
is scheduled at `startTime`, and `nextStartTimeRef` advances by the chunk
duration.  Returns the scheduled start time and the new `nextStart`. -/
def enqueue (clockNow nextStart dur : ℚ) : ℚ × ℚ :=
  let startTime := if clockNow ≤ nextStart then nextStart else clockNow
  (startTime, startTime + dur)

/-- The fixed output sample rate of the playback path: both the output
`AudioContext` and `createBuffer` in `playAudioChunk` use 24000 Hz. -/
def outputSampleRateHz : Nat := 24000

/-- One public mutating entry point of `ConfigService` (or of the services
that drive it), used to quantify over arbitrary operation sequences. -/
inductive ConfigOp where
  | saveProviderOp (now : Nat) (p : AIProvider)
  | deleteProviderOp (now : Nat) (pid : String)
  | toggleUserStatusOp (now : Nat) (uid : String)
  | logActionOp (now : Nat) (actor details status : String)
  | getClientOp (now : Nat)
deriving Repr

/-- Interpretation of one `ConfigOp` on the store state.  `getClientOp` runs
the `src/unnamed/part_001` variant of `getClient` and keeps the resulting
state. -/
def applyOp (s : ConfigState) : ConfigOp → ConfigState
  | .saveProviderOp now p => saveProvider s now p
  | .deleteProviderOp now pid => deleteProvider s now pid
  | .toggleUserStatusOp now uid => toggleUserStatus s now uid
  | .logActionOp now actor details status => logAction s now actor details status
  | .getClientOp now => (Part001.getClient s now).2

/-- A whole operation sequence applied from a given state. -/
def runOps (s : ConfigState) (ops : List ConfigOp) : ConfigState :=
  ops.foldl applyOp s

/-- The sextet value of one base64 alphabet character, `none` outside the
alphabet.  Models the character table consumed by the `atob` builtin used in
`playAudioChunk`. -/
def base64CharVal (c : Char) : Option Nat :=
  if 'A' ≤ c ∧ c ≤ 'Z' then some (c.toNat - 65)
  else if 'a' ≤ c ∧ c ≤ 'z' then some (c.toNat - 97 + 26)
  else if '0' ≤ c ∧ c ≤ '9' then some (c.toNat - 48 + 52)
  else if c = '+' then some 62
  else if c = '/' then some 63
  else none

/-- Character-wise table lookup over a whole string, failing on the first
character outside the base64 alphabet (this is how `atob` rejects malformed
input, including stray `=` in the middle). -/
def base64Vals : List Char → Option (List Nat)
  | [] => some []
  | c :: cs =>
      match base64CharVal c, base64Vals cs with
      | some v, some vs => some (v :: vs)
      | _, _ => none

/-- Reassembly of 6-bit groups into bytes: a full group of four sextets
yields three bytes; a trailing group of three yields two bytes and one of
two yields one byte, discarding the leftover low bits (forgiving-base64). -/
def decodeSextets : List Nat → List Nat
  | a :: b :: c :: d :: rest =>
      (a * 4 + b / 16) :: ((b % 16) * 16 + c / 4) :: ((c % 4) * 64 + d) ::
        decodeSextets rest
  | [a, b, c] => [a * 4 + b / 16, (b % 16) * 16 + c / 4]
  | [a, b] => [a * 4 + b / 16]
  | [_] => []
  | [] => []

/-- ASCII whitespace stripped by forgiving-base64 decoding. -/
def isB64Whitespace (c : Char) : Bool :=
  c = ' ' || c = '\t' || c = '\n' || c = '\x0c' || c = '\r'

/-- Model of the browser `atob` builtin (WHATWG forgiving-base64 decode)
used by `playAudioChunk`: strip ASCII whitespace, strip up to two trailing
padding characters when the length is a multiple of four, fail when the
remaining length is 1 mod 4 or any character is outside the alphabet, then
reassemble the sextets into bytes.  Every output value is a byte
(< 256). -/
def atob (s : String) : Option (List Nat) :=
  let cs0 := s.data.filter (fun c => !isB64Whitespace c)
  let cs :=
    if cs0.length % 4 = 0 then
      if cs0.getLast? = some '=' then
        let cs1 := cs0.dropLast
        if cs1.getLast? = some '=' then cs1.dropLast else cs1
      else cs0
    else cs0
  if cs.length % 4 = 1 then none
  else
    match base64Vals cs with
    | some vals => some (decodeSextets vals)
    | none => none

/-- The 16-bit little-endian reinterpretation `new Int16Array(bytes.buffer)`
of `playAudioChunk`, as signed integers (typed arrays use the platform's
little-endian byte order). -/
def bytesToInt16 : List Nat → List Int
  | lo :: hi :: rest =>
      (let v := lo + 256 * hi
       if v < 32768 then (v : Int) else (v : Int) - 65536) :: bytesToInt16 rest
  | _ => []

/-- The possible decode failures of the inbound audio path, per the spec's
`DecodeError` taxonomy: `atob` throws on malformed base64, and the
`Int16Array` constructor throws on a buffer of odd byte length. -/
inductive DecodeError where
  | malformedBase64
  | oddByteLength
deriving DecidableEq, Repr

/-- The decoding front half of `playAudioChunk` (lines 95 to 106): base64
decode, reinterpret as little-endian signed 16-bit samples, and scale by
`1 / 32768`.  Division of an `Int16` value by 32768.0 is exact in binary
floating point, so exact rationals model the JS floats faithfully. -/
def decodeInbound (b64 : String) : Except DecodeError (List ℚ) :=
  match atob b64 with
  | none => .error .malformedBase64
  | some bytes =>
      if bytes.length % 2 = 0 then
        .ok ((bytesToInt16 bytes).map (fun (i : Int) => (i : ℚ) / 32768))
      else .error .oddByteLength

/-- One inbound transcript event as delivered to the `onMessage` callback of
`LiveSession.startSession`: the `Date.now()` stamp, the optional text
fragment, whether it is user input, and the turn-complete flag. -/
structure TranscriptEvent where
  now : Nat
  text : Option String
  isUser : Bool
  isComplete : Bool
deriving DecidableEq, Repr

/-- A whole inbound transcript event stream applied through `onMessage`. -/
def runEvents (msgs : List ChatMessage) (evs : List TranscriptEvent) :
    List ChatMessage :=
  evs.foldl (fun m e => onMessage m e.now e.text e.isUser e.isComplete) msgs

/-- A fully resourced mid-session state: every ref non-null, session active,
transcript empty. -/
def runningRefs : SessionRefs :=
  { disconnectSet := true, streamSet := true, audioCtxSet := true,
    outputCtxSet := true, processorSet := true, sendAudioSet := true,
    isActive := true, isPaused := false, isCriticalError := false,
    errorMsg := none, nextStartTime := 0, messages := [] }

/-! ## Helper lemmas about the provider ordering -/

/-- The in-place sort of `getProviders` yields a list sorted by priority. -/
theorem sorted_sortByPriority (ps : List AIProvider) :
    (sortByPriority ps).Sorted prioLE :=
  List.sorted_insertionSort prioLE ps

/-- Sorting permutes the providers: no record is created, dropped or
changed. -/
theorem perm_sortByPriority (ps : List AIProvider) :
    List.Perm (sortByPriority ps) ps :=
  List.perm_insertionSort prioLE ps

/-- The first active element after inserting `p` into a sorted list: `p`
itself when `p` is active and at least ties the previous first active
element, that previous element otherwise. -/
theorem filter_head_orderedInsert (p : AIProvider) (l : List AIProvider)
    (hl : l.Sorted prioLE) :
    ((List.orderedInsert prioLE p l).filter (·.isActive)).head? =
      (if p.isActive then
        match (l.filter (·.isActive)).head? with
        | none => some p
        | some q => if p.priority ≤ q.priority then some p else some q
      else (l.filter (·.isActive)).head?) := by
  induction l with
  | nil =>
      cases hp : p.isActive <;>
        simp [List.orderedInsert, List.filter_cons, hp]
  | cons y ys ih =>
      have hy : ∀ b ∈ ys, prioLE y b := List.rel_of_sorted_cons hl
      have hys : ys.Sorted prioLE := (List.sorted_cons.mp hl).2
      by_cases hpy : prioLE p y
      · rw [List.orderedInsert_of_le _ _ hpy]
        cases hp : p.isActive
        · simp [List.filter_cons, hp]
        · rw [List.filter_cons]
          simp only [hp, if_pos, List.head?_cons, if_true]
          cases hq : ((y :: ys).filter (·.isActive)).head? with
          | none => simp
          | some q =>
              have hqmem : q ∈ y :: ys :=
                List.mem_of_mem_filter (List.mem_of_mem_head? (Option.mem_def.mpr hq))
              have hpq : p.priority ≤ q.priority := by
                rcases List.mem_cons.mp hqmem with h | h
                · subst h; exact hpy
                · exact le_trans hpy (hy q h)
              simp [hpq]
      · have hins : List.orderedInsert prioLE p (y :: ys) =
            y :: List.orderedInsert prioLE p ys := by
          simp [List.orderedInsert, hpy]
        rw [hins]
        cases hyact : y.isActive
        · rw [List.filter_cons]
          simp only [hyact, Bool.false_eq_true, if_false]
          rw [ih hys]
          rw [List.filter_cons]
          simp [hyact]
        · rw [List.filter_cons]
          simp only [hyact, if_true, List.head?_cons]
          have hrhs : ((y :: ys).filter (·.isActive)).head? = some y := by
            rw [List.filter_cons]
            simp [hyact]
          rw [hrhs]
          have hnp : ¬ p.priority ≤ y.priority := hpy
          cases hp : p.isActive
          · simp
          · simp [hnp]

/-- The provider the implementation picks — the head of the stably sorted,
filtered list — is exactly the spec-side selection `minActive?`. -/
theorem head_filter_sortByPriority (ps : List AIProvider) :
    ((sortByPriority ps).filter (·.isActive)).head? = minActive? ps := by
  induction ps with
  | nil => rfl
  | cons p ps ih =>
      have hstep : sortByPriority (p :: ps) =
          List.orderedInsert prioLE p (sortByPriority ps) := rfl
      rw [hstep, filter_head_orderedInsert p _ (sorted_sortByPriority ps), ih]
      cases hp : p.isActive <;> simp [minActive?, hp]

/-- A provider set with at least one active member has a selection. -/
theorem minActive_isSome {ps : List AIProvider} {p : AIProvider}
    (hp : p ∈ ps) (hact : p.isActive = true) :
    ∃ q, minActive? ps = some q := by
  induction ps with
  | nil => cases hp
  | cons a ps ih =>
      cases ha : a.isActive
      · rcases List.mem_cons.mp hp with h | h
        · subst h; rw [hact] at ha; cases ha
        · rcases ih h with ⟨q, hq⟩
          exact ⟨q, by simp [minActive?, ha, hq]⟩
      · cases hrest : minActive? ps with
        | none => exact ⟨a, by simp [minActive?, ha, hrest]⟩
        | some q =>
            by_cases hle : a.priority ≤ q.priority
            · exact ⟨a, by simp [minActive?, ha, hrest, hle]⟩
            · exact ⟨q, by simp [minActive?, ha, hrest, hle]⟩

/-- The saved provider is always present in the store afterwards. -/
theorem mem_saveProviderList (l : List AIProvider) (p : AIProvider) :
    p ∈ saveProviderList l p := by
  induction l with
  | nil => simp [saveProviderList]
  | cons q qs ih =>
      by_cases h : q.id = p.id <;> simp [saveProviderList, h, ih]

/-! ## Claim theorems -/

/-- C1: for every provider set containing at least one active provider with
a non-empty API key, provider selection (`getClient` of
`src/services/geminiService.ts`) returns the active provider with the
numerically lowest priority value, ties broken by original registration
order (`minActive?` is exactly that stable selection), and afterwards that
provider with its usage counter incremented by one is present in the
persisted provider store. -/
theorem c1_selectProvider_min_priority (s : ConfigState) (now : Nat)
    (h : ∃ p ∈ s.providers, p.isActive = true ∧ jsTrim p.apiKey ≠ "") :
    ∃ sel, minActive? s.providers = some sel ∧
      (ServicesGemini.getClient s now).1 =
        Except.ok { apiKey := sel.apiKey, modelId := sel.modelId } ∧
      { sel with usageCount := sel.usageCount + 1 } ∈
        (ServicesGemini.getClient s now).2.providers := by
  obtain ⟨p, hp, hact, _⟩ := h
  obtain ⟨sel, hsel⟩ := minActive_isSome hp hact
  have hhead : ((sortByPriority s.providers).filter (·.isActive)).head? = some sel := by
    rw [head_filter_sortByPriority]; exact hsel
  obtain ⟨t, hfl⟩ : ∃ t, (sortByPriority s.providers).filter (·.isActive) = sel :: t := by
    cases hfl : (sortByPriority s.providers).filter (·.isActive) with
    | nil => rw [hfl] at hhead; cases hhead
    | cons a t =>
        rw [hfl] at hhead
        simp at hhead
        subst hhead
        exact ⟨t, rfl⟩
  refine ⟨sel, hsel, ?_, ?_⟩
  · simp only [ServicesGemini.getClient, hfl]
  · simp only [ServicesGemini.getClient, hfl]
    simp [saveProvider, logAction]
    exact mem_saveProviderList _ _

/-- C1 witness: a two-provider store where the priority-1 provider is
registered second; selection returns it and bumps its counter from 3 to
4. -/
theorem c1_selectProvider_min_priority_witness :
    (∃ p ∈ [(⟨"b", "B", "google", "kb", "mb", true, 2, 1000, 7⟩ : AIProvider),
            (⟨"a", "A", "google", "ka", "ma", true, 1, 1000, 3⟩ : AIProvider)],
        p.isActive = true ∧ jsTrim p.apiKey ≠ "") ∧
    (∃ sel,
      minActive? [(⟨"b", "B", "google", "kb", "mb", true, 2, 1000, 7⟩ : AIProvider),
                  (⟨"a", "A", "google", "ka", "ma", true, 1, 1000, 3⟩ : AIProvider)] = some sel ∧
      (ServicesGemini.getClient
          ⟨[⟨"b", "B", "google", "kb", "mb", true, 2, 1000, 7⟩,
            ⟨"a", "A", "google", "ka", "ma", true, 1, 1000, 3⟩], [], []⟩ 5).1 =
        Except.ok { apiKey := sel.apiKey, modelId := sel.modelId } ∧
      { sel with usageCount := sel.usageCount + 1 } ∈
        (ServicesGemini.getClient
          ⟨[⟨"b", "B", "google", "kb", "mb", true, 2, 1000, 7⟩,
            ⟨"a", "A", "google", "ka", "ma", true, 1, 1000, 3⟩], [], []⟩ 5).2.providers) :=
  ⟨by decide,
   c1_selectProvider_min_priority
     ⟨[⟨"b", "B", "google", "kb", "mb", true, 2, 1000, 7⟩,
       ⟨"a", "A", "google", "ka", "ma", true, 1, 1000, 3⟩], [], []⟩ 5 (by decide)⟩

/-- C2: with zero active providers, provider selection (`getClient` of
`src/unnamed/part_001`) fails with the no-active-provider error kind; when
the top-priority active provider's key is empty or whitespace-only, it
fails with the missing-credential error kind; in both cases the provider
store afterwards is a permutation of the one before (every record, hence
every usage counter, is unchanged) and no log entry is written. -/
theorem c2_selectProvider_error_paths (s : ConfigState) (now : Nat) :
    ((∀ p ∈ s.providers, p.isActive = false) →
      (Part001.getClient s now).1 = Except.error GetClientError.noActiveProvider ∧
      List.Perm (Part001.getClient s now).2.providers s.providers ∧
      (Part001.getClient s now).2.logs = s.logs) ∧
    (∀ sel, minActive? s.providers = some sel → jsTrim sel.apiKey = "" →
      (Part001.getClient s now).1 = Except.error GetClientError.missingCredential ∧
      List.Perm (Part001.getClient s now).2.providers s.providers ∧
      (Part001.getClient s now).2.logs = s.logs) := by
  constructor
  · intro h
    have hfl : (sortByPriority s.providers).filter (·.isActive) = [] := by
      rw [List.filter_eq_nil_iff]
      intro a ha
      have hmem : a ∈ s.providers := (perm_sortByPriority s.providers).mem_iff.mp ha
      simp [h a hmem]
    simp only [Part001.getClient, hfl]
    exact ⟨trivial, perm_sortByPriority s.providers, trivial⟩
  · intro sel hsel htrim
    have hhead : ((sortByPriority s.providers).filter (·.isActive)).head? = some sel := by
      rw [head_filter_sortByPriority]; exact hsel
    obtain ⟨t, hfl⟩ : ∃ t, (sortByPriority s.providers).filter (·.isActive) = sel :: t := by
      cases hfl : (sortByPriority s.providers).filter (·.isActive) with
      | nil => rw [hfl] at hhead; cases hhead
      | cons a t =>
          rw [hfl] at hhead
          simp at hhead
          subst hhead
          exact ⟨t, rfl⟩
    simp only [Part001.getClient, hfl, htrim, if_pos]
    exact ⟨trivial, perm_sortByPriority s.providers, trivial⟩

/-- C2 witness: a store whose only provider is inactive fails with
no-active-provider; a store whose only (active, top-priority) provider has
a whitespace-only key fails with missing-credential; both leave providers
and logs untouched. -/
theorem c2_selectProvider_error_paths_witness :
    ((Part001.getClient ⟨[⟨"x", "X", "google", "kx", "mx", false, 1, 1000, 0⟩], [], []⟩ 7).1 =
        Except.error GetClientError.noActiveProvider ∧
      List.Perm (Part001.getClient ⟨[⟨"x", "X", "google", "kx", "mx", false, 1, 1000, 0⟩], [], []⟩ 7).2.providers
        [⟨"x", "X", "google", "kx", "mx", false, 1, 1000, 0⟩] ∧
      (Part001.getClient ⟨[⟨"x", "X", "google", "kx", "mx", false, 1, 1000, 0⟩], [], []⟩ 7).2.logs = []) ∧
    ((Part001.getClient ⟨[⟨"y", "Y", "google", "  ", "my", true, 1, 1000, 0⟩], [], []⟩ 7).1 =
        Except.error GetClientError.missingCredential ∧
      List.Perm (Part001.getClient ⟨[⟨"y", "Y", "google", "  ", "my", true, 1, 1000, 0⟩], [], []⟩ 7).2.providers
        [⟨"y", "Y", "google", "  ", "my", true, 1, 1000, 0⟩] ∧
      (Part001.getClient ⟨[⟨"y", "Y", "google", "  ", "my", true, 1, 1000, 0⟩], [], []⟩ 7).2.logs = []) :=
  ⟨(c2_selectProvider_error_paths ⟨[⟨"x", "X", "google", "kx", "mx", false, 1, 1000, 0⟩], [], []⟩ 7).1
     (by decide),
   (c2_selectProvider_error_paths ⟨[⟨"y", "Y", "google", "  ", "my", true, 1, 1000, 0⟩], [], []⟩ 7).2
     ⟨"y", "Y", "google", "  ", "my", true, 1, 1000, 0⟩ (by decide) (by decide)⟩

/-- One `logAction` call keeps the log list within the 100-entry bound. -/
theorem logAction_logs_le (s : ConfigState) (now : Nat) (a d st : String)
    (h : s.logs.length ≤ 100) :
    (logAction s now a d st).logs.length ≤ 100 := by
  simp only [logAction]
  split
  · rw [List.length_dropLast]
    simpa using h
  · simp at *
    omega

/-- Every `ConfigService` operation keeps the log list within the bound. -/
theorem applyOp_logs_le {s : ConfigState} (h : s.logs.length ≤ 100)
    (op : ConfigOp) :
    (applyOp s op).logs.length ≤ 100 := by
  cases op with
  | saveProviderOp now p => exact logAction_logs_le _ _ _ _ _ h
  | deleteProviderOp now pid => exact logAction_logs_le _ _ _ _ _ h
  | toggleUserStatusOp now uid =>
      simp only [applyOp, toggleUserStatus]
      split
      · exact h
      · exact logAction_logs_le _ _ _ _ _ h
  | logActionOp now a d st => exact logAction_logs_le _ _ _ _ _ h
  | getClientOp now =>
      simp only [applyOp, Part001.getClient]
      split
      · exact h
      · split
        · exact h
        · exact logAction_logs_le _ _ _ _ _ h

/-- The log bound is preserved by arbitrary operation sequences. -/
theorem runOps_logs_le (ops : List ConfigOp) (s : ConfigState)
    (h : s.logs.length ≤ 100) :
    (runOps s ops).logs.length ≤ 100 := by
  induction ops generalizing s with
  | nil => simpa [runOps] using h
  | cons op ops ih =>
      simp only [runOps, List.foldl_cons]
      exact ih _ (applyOp_logs_le h op)

/-- C10: after every sequence of `ConfigService` operations starting from a
freshly constructed service, the system log holds at most 100 entries; and
`logAction` always places the new entry at the front (newest first),
evicting from the back when the bound would be exceeded. -/
theorem c10_log_list_bounded (ps : List AIProvider) (us : List User)
    (now0 : Nat) (ops : List ConfigOp) :
    (runOps (initConfig ps us now0) ops).logs.length ≤ 100 ∧
    ∀ (s : ConfigState) (now : Nat) (a d st : String),
      (logAction s now a d st).logs.head? =
        some { timestamp := now, action := a, details := d, status := st } := by
  constructor
  · exact runOps_logs_le ops _ (by simp [initConfig, logAction])
  · intro s now a d st
    simp only [logAction]
    split
    · next h1 =>
        cases hl : s.logs with
        | nil => rw [hl] at h1; simp at h1
        | cons x t => simp [hl, List.dropLast]
    · simp

/-- C8: feeding the fragments "Hel", "lo wor", "ld" for the AI role with no
turn-complete in between yields exactly one chat message, partial, with
content "Hello world"; the subsequent turn-complete marker clears the
partial flag and leaves the content unchanged. -/
theorem c8_fragment_aggregation :
    onMessage (onMessage (onMessage [] 0 (some "Hel") false false)
        1 (some "lo wor") false false) 2 (some "ld") false false =
      [{ type := MessageType.ai, content := "Hello world", timestamp := 0,
         isPartial := true }] ∧
    onMessage [{ type := MessageType.ai, content := "Hello world", timestamp := 0,
                 isPartial := true }] 3 none false true =
      [{ type := MessageType.ai, content := "Hello world", timestamp := 0,
         isPartial := false }] := by
  decide

/-! ## Helper lemmas about the transcript aggregator -/

/-- Both `addMessage` branches leave every message before the trailing one
untouched. -/
theorem addMessage_take (msgs : List ChatMessage) (now : Nat) (c : String)
    (t : MessageType) (b : Bool) :
    (addMessage msgs now c t b).take (msgs.length - 1) =
      msgs.take (msgs.length - 1) := by
  cases hl : msgs.getLast? with
  | none =>
      simp only [addMessage, hl]
      exact List.take_append_of_le_length (by omega)
  | some last =>
      simp only [addMessage, hl]
      split
      · rw [List.take_append_of_le_length (by rw [List.length_dropLast])]
        rw [List.dropLast_eq_take, List.take_take]
        congr 1
        omega
      · exact List.take_append_of_le_length (by omega)

/-- `addMessage` never shrinks the transcript. -/
theorem addMessage_length_ge (msgs : List ChatMessage) (now : Nat) (c : String)
    (t : MessageType) (b : Bool) :
    msgs.length ≤ (addMessage msgs now c t b).length := by
  cases hl : msgs.getLast? with
  | none =>
      simp only [addMessage, hl]
      simp
  | some last =>
      have hne : msgs ≠ [] := by
        intro hnil
        rw [hnil] at hl
        cases hl
      have hpos := List.length_pos.mpr hne
      simp only [addMessage, hl]
      split
      · simp only [List.length_append, List.length_dropLast, List.length_cons,
          List.length_nil]
        omega
      · simp

/-- `finalizeLastMessage` never changes the number of messages. -/
theorem finalizeLastMessage_length (msgs : List ChatMessage) (t : MessageType) :
    (finalizeLastMessage msgs t).length = msgs.length := by
  cases hl : msgs.getLast? with
  | none => simp only [finalizeLastMessage, hl]
  | some last =>
      have hne : msgs ≠ [] := by
        intro hnil
        rw [hnil] at hl
        cases hl
      have hpos := List.length_pos.mpr hne
      simp only [finalizeLastMessage, hl]
      split
      · simp only [List.length_append, List.length_dropLast, List.length_cons,
          List.length_nil]
        omega
      · rfl

/-- `finalizeLastMessage` leaves every message before the trailing one
untouched. -/
theorem finalizeLastMessage_take (msgs : List ChatMessage) (t : MessageType) :
    (finalizeLastMessage msgs t).take (msgs.length - 1) =
      msgs.take (msgs.length - 1) := by
  cases hl : msgs.getLast? with
  | none => simp only [finalizeLastMessage, hl]
  | some last =>
      simp only [finalizeLastMessage, hl]
      split
      · rw [List.take_append_of_le_length (by rw [List.length_dropLast])]
        rw [List.dropLast_eq_take, List.take_take]
        congr 1
        omega
      · rfl

/-- One inbound event leaves every message before the trailing one
untouched. -/
theorem onMessage_take (msgs : List ChatMessage) (now : Nat)
    (txt : Option String) (u cpl : Bool) :
    (onMessage msgs now txt u cpl).take (msgs.length - 1) =
      msgs.take (msgs.length - 1) := by
  cases txt with
  | none =>
      simp only [onMessage]
      split
      · exact finalizeLastMessage_take msgs .ai
      · rfl
  | some tx =>
      simp only [onMessage]
      by_cases htx : tx = ""
      · simp only [htx, if_true, if_pos]
        split
        · exact finalizeLastMessage_take msgs .ai
        · rfl
      · rw [if_neg htx]
        exact addMessage_take msgs now tx _ _

/-- One inbound event never shrinks the transcript. -/
theorem onMessage_length_ge (msgs : List ChatMessage) (now : Nat)
    (txt : Option String) (u cpl : Bool) :
    msgs.length ≤ (onMessage msgs now txt u cpl).length := by
  cases txt with
  | none =>
      simp only [onMessage]
      split
      · rw [finalizeLastMessage_length]
      · exact le_refl _
  | some tx =>
      simp only [onMessage]
      by_cases htx : tx = ""
      · simp only [htx, if_true, if_pos]
        split
        · rw [finalizeLastMessage_length]
        · exact le_refl _
      · rw [if_neg htx]
        exact addMessage_length_ge msgs now tx _ _

/-- Messages that are no longer trailing are immutable under any further
event stream. -/
theorem runEvents_prefix_stable (evs : List TranscriptEvent)
    (msgs : List ChatMessage) :
    (runEvents msgs evs).take (msgs.length - 1) =
      msgs.take (msgs.length - 1) := by
  induction evs generalizing msgs with
  | nil => rfl
  | cons e evs ih =>
      have hstep : runEvents msgs (e :: evs) =
          runEvents (onMessage msgs e.now e.text e.isUser e.isComplete) evs := rfl
      rw [hstep]
      have hmono := onMessage_length_ge msgs e.now e.text e.isUser e.isComplete
      have h1 := ih (onMessage msgs e.now e.text e.isUser e.isComplete)
      have h2 := congrArg (List.take (msgs.length - 1)) h1
      rw [List.take_take, List.take_take] at h2
      have hmin : (msgs.length - 1) ⊓
          ((onMessage msgs e.now e.text e.isUser e.isComplete).length - 1) =
            msgs.length - 1 :=
        min_eq_left (Nat.sub_le_sub_right hmono 1)
      rw [hmin] at h2
      rw [h2]
      exact onMessage_take msgs e.now e.text e.isUser e.isComplete

/-- C3 counterexample: after an AI fragment "a" and then a user fragment
"b", the AI message is no longer trailing yet its partial flag is still set
(the claim demands it be cleared by the arrival of a message of a different
role); after one more AI fragment "c", two AI messages are flagged partial
at once (the claim allows at most one per role). -/
theorem c3_transcript_invariant_counterexample :
    (onMessage (onMessage [] 0 (some "a") false false) 1 (some "b") true false).head? =
      some { type := MessageType.ai, content := "a", timestamp := 0,
             isPartial := true } ∧
    List.countP (fun m => m.type == MessageType.ai && m.isPartial)
      (onMessage (onMessage (onMessage [] 0 (some "a") false false)
          1 (some "b") true false) 2 (some "c") false false) = 2 := by
  decide

/-- C3 (amended): after every applied fragment or turn-complete event only
the trailing message is ever modified — messages before it are immutable
under any further event stream; a trailing partial message of the same role
is extended in place by appending the fragment, never duplicated (the list
length is unchanged); a fragment of a different role appends a new message
and leaves the earlier partial message unchanged, its flag still set; a
turn-complete signal for the trailing message's role clears its partial
flag with no change to any text content. -/
theorem c3_transcript_invariant_amended (msgs : List ChatMessage) (now : Nat)
    (c : String) (t : MessageType) (b : Bool) :
    (∀ evs, (runEvents msgs evs).take (msgs.length - 1) =
        msgs.take (msgs.length - 1)) ∧
    (∀ last, msgs.getLast? = some last → last.isPartial = true →
        last.type = t →
        addMessage msgs now c t b =
          msgs.dropLast ++
            [{ last with content := last.content ++ c, isPartial := b }] ∧
        (addMessage msgs now c t b).length = msgs.length) ∧
    (∀ last, msgs.getLast? = some last → last.type ≠ t →
        addMessage msgs now c t b =
          msgs ++ [{ type := t, content := c, timestamp := now,
                     isPartial := b }]) ∧
    ((finalizeLastMessage msgs t).map (fun m => m.content) =
        msgs.map (fun m => m.content)) ∧
    (∀ last, msgs.getLast? = some last → last.type = t →
        finalizeLastMessage msgs t =
          msgs.dropLast ++ [{ last with isPartial := false }]) := by
  refine ⟨fun evs => runEvents_prefix_stable evs msgs, ?_, ?_, ?_, ?_⟩
  · intro last hl hpart htype
    have hne : msgs ≠ [] := by
      intro hnil
      rw [hnil] at hl
      cases hl
    have hpos := List.length_pos.mpr hne
    have hcond : (last.isPartial && last.type == t) = true := by
      simp [hpart, htype]
    constructor
    · simp only [addMessage, hl, hcond, if_true, if_pos]
    · simp only [addMessage, hl, hcond, if_true, if_pos]
      simp only [List.length_append, List.length_dropLast, List.length_cons,
        List.length_nil]
      omega
  · intro last hl htype
    have hcond : (last.isPartial && last.type == t) = false := by
      simp [htype]
    simp only [addMessage, hl, hcond, Bool.false_eq_true, if_false]
  · cases hl : msgs.getLast? with
    | none => simp only [finalizeLastMessage, hl]
    | some last =>
        have hne : msgs ≠ [] := by
          intro hnil
          rw [hnil] at hl
          cases hl
        simp only [finalizeLastMessage, hl]
        split
        · conv_rhs => rw [← List.dropLast_append_getLast hne]
          rw [List.map_append, List.map_append]
          have hlast : msgs.getLast hne = last := by
            have := List.getLast?_eq_getLast msgs hne
            rw [hl] at this
            exact (Option.some.injEq _ _).mp this.symm
          simp [hlast]
        · rfl
  · intro last hl htype
    have hcond : (last.type == t) = true := by simp [htype]
    simp only [finalizeLastMessage, hl, hcond, if_true, if_pos]

/-- C3 witness: a one-message transcript with a trailing partial AI message
"He" is extended in place by "y" and later finalized in place. -/
theorem c3_transcript_invariant_amended_witness :
    (addMessage [⟨MessageType.ai, "He", 0, true⟩] 1 "y" MessageType.ai true =
        ([⟨MessageType.ai, "He", 0, true⟩] : List ChatMessage).dropLast ++
          [{ (⟨MessageType.ai, "He", 0, true⟩ : ChatMessage) with
              content := (⟨MessageType.ai, "He", 0, true⟩ : ChatMessage).content ++ "y",
              isPartial := true }] ∧
      (addMessage [⟨MessageType.ai, "He", 0, true⟩] 1 "y" MessageType.ai true).length =
        ([⟨MessageType.ai, "He", 0, true⟩] : List ChatMessage).length) ∧
    finalizeLastMessage [⟨MessageType.ai, "He", 0, true⟩] MessageType.ai =
      ([⟨MessageType.ai, "He", 0, true⟩] : List ChatMessage).dropLast ++
        [{ (⟨MessageType.ai, "He", 0, true⟩ : ChatMessage) with isPartial := false }] :=
  ⟨(c3_transcript_invariant_amended [⟨MessageType.ai, "He", 0, true⟩] 1 "y"
        MessageType.ai true).2.1
      ⟨MessageType.ai, "He", 0, true⟩ (by decide) (by decide) (by decide),
   (c3_transcript_invariant_amended [⟨MessageType.ai, "He", 0, true⟩] 1 "y"
        MessageType.ai true).2.2.2.2
      ⟨MessageType.ai, "He", 0, true⟩ (by decide) (by decide)⟩

/-- C4 counterexample: `stopSession` does not reset the playback clock —
`nextStartTimeRef` keeps its old value 5 instead of returning to the
initial 0 — and the remote-close path (`onClose`) releases nothing: the
microphone stream and the connection refs are still set afterwards. -/
theorem c4_teardown_counterexample :
    (stopSession { runningRefs with nextStartTime := 5 }).2.nextStartTime = 5 ∧
    (5 : ℚ) ≠ 0 ∧
    (onCloseHandler { runningRefs with nextStartTime := 5 } 9).streamSet = true ∧
    (onCloseHandler { runningRefs with nextStartTime := 5 } 9).disconnectSet = true := by
  refine ⟨rfl, by norm_num, rfl, rfl⟩

/-- C4 (amended): on the explicit-stop, remote-error and start-failure paths,
teardown signals disconnect, stops the microphone tracks, and closes the
input and output audio graphs — each exactly once per invocation, in that
program order; the playback clock's `nextStart` is NOT reset (it keeps its
previous value); and the remote-close path releases no resource at all. -/
theorem c4_teardown_amended (s : SessionRefs) (msg : String) (now : Nat)
    (h : s.disconnectSet = true ∧ s.streamSet = true ∧ s.audioCtxSet = true ∧
      s.outputCtxSet = true) :
    (stopSession s).1 =
      [ReleaseAction.disconnect, ReleaseAction.stopTracks,
       ReleaseAction.closeInputCtx, ReleaseAction.closeOutputCtx] ∧
    (stopSession s).2.nextStartTime = s.nextStartTime ∧
    (onErrorHandler s msg).1 =
      [ReleaseAction.disconnect, ReleaseAction.stopTracks,
       ReleaseAction.closeInputCtx, ReleaseAction.closeOutputCtx] ∧
    (startCatchHandler s msg true).1 =
      [ReleaseAction.disconnect, ReleaseAction.stopTracks,
       ReleaseAction.closeInputCtx, ReleaseAction.closeOutputCtx] ∧
    (onCloseHandler s now).disconnectSet = s.disconnectSet ∧
    (onCloseHandler s now).streamSet = s.streamSet ∧
    (onCloseHandler s now).audioCtxSet = s.audioCtxSet ∧
    (onCloseHandler s now).outputCtxSet = s.outputCtxSet := by
  obtain ⟨h1, h2, h3, h4⟩ := h
  refine ⟨?_, rfl, ?_, ?_, rfl, rfl, rfl, rfl⟩ <;>
    simp [stopSession, onErrorHandler, startCatchHandler, h1, h2, h3, h4]

/-- C4 witness: the fully resourced running state releases all four
resources once each on stop and on the error paths, keeps its playback
clock value, and loses nothing on the remote-close path. -/
theorem c4_teardown_amended_witness :
    (stopSession runningRefs).1 =
      [ReleaseAction.disconnect, ReleaseAction.stopTracks,
       ReleaseAction.closeInputCtx, ReleaseAction.closeOutputCtx] ∧
    (stopSession runningRefs).2.nextStartTime = runningRefs.nextStartTime ∧
    (onErrorHandler runningRefs "boom").1 =
      [ReleaseAction.disconnect, ReleaseAction.stopTracks,
       ReleaseAction.closeInputCtx, ReleaseAction.closeOutputCtx] ∧
    (startCatchHandler runningRefs "boom" true).1 =
      [ReleaseAction.disconnect, ReleaseAction.stopTracks,
       ReleaseAction.closeInputCtx, ReleaseAction.closeOutputCtx] ∧
    (onCloseHandler runningRefs 3).disconnectSet = runningRefs.disconnectSet ∧
    (onCloseHandler runningRefs 3).streamSet = runningRefs.streamSet ∧
    (onCloseHandler runningRefs 3).audioCtxSet = runningRefs.audioCtxSet ∧
    (onCloseHandler runningRefs 3).outputCtxSet = runningRefs.outputCtxSet :=
  c4_teardown_amended runningRefs "boom" 3 ⟨rfl, rfl, rfl, rfl⟩

/-- C6 counterexample: after a first `stopSession` on a running session the
second call is not a no-op — it re-issues the disconnect signal, the track
stop and the input-context close, because those refs were never cleared. -/
theorem c6_stop_idempotent_counterexample :
    (stopSession (stopSession runningRefs).2).1 =
      [ReleaseAction.disconnect, ReleaseAction.stopTracks,
       ReleaseAction.closeInputCtx] ∧
    (stopSession (stopSession runningRefs).2).1 ≠ [] := by
  constructor
  · rfl
  · intro hcontra
    cases hcontra

/-- C6 (amended): a second `stopSession` leaves the state Idle (active and
paused flags false), and re-issues exactly the first call's release actions
minus the output-context close (only that ref is cleared by the first
call); `stopSession` from the pristine Idle state is a complete no-op. -/
theorem c6_stop_idempotent_amended (s : SessionRefs) :
    (stopSession (stopSession s).2).2.isActive = false ∧
    (stopSession (stopSession s).2).2.isPaused = false ∧
    (stopSession (stopSession s).2).1 =
      ((stopSession s).1).filter (fun a => !(a == ReleaseAction.closeOutputCtx)) ∧
    stopSession initialRefs = ([], initialRefs) := by
  refine ⟨rfl, rfl, ?_, rfl⟩
  cases hd : s.disconnectSet <;> cases hs : s.streamSet <;>
    cases ha : s.audioCtxSet <;> cases ho : s.outputCtxSet <;>
      simp [stopSession, hd, hs, ha, ho]

/-- C5 counterexample: with valid monotone clock readings 0 then 5 (the
output clock advanced past the queued audio because delivery stalled), the
second chunk starts at time 5, not at the claimed t + d1 = 1 — so start
times do depend on when the enqueue calls physically occur. -/
theorem c5_scheduling_counterexample :
    (0 : ℚ) ≤ 5 ∧
    (enqueue 0 0 1).1 = 0 ∧
    (enqueue 5 (enqueue 0 0 1).2 1).1 = 5 ∧
    (enqueue 5 (enqueue 0 0 1).2 1).1 ≠ (enqueue 0 0 1).1 + 1 := by
  norm_num [enqueue]

/-- C5 (amended): enqueuing chunks with durations d1, d2, d3 in order yields
start times t, t + d1, t + d1 + d2 provided each later enqueue call occurs
no later than the pending `nextStart` deadline (its clock reading is at
most the previously scheduled end time); each enqueue computes
startTime = max(outputClockNow, nextStart) and advances `nextStart` by the
chunk duration. -/
theorem c5_scheduling_amended (n0 c1 c2 c3 d1 d2 d3 : ℚ)
    (h2 : c2 ≤ (enqueue c1 n0 d1).2)
    (h3 : c3 ≤ (enqueue c2 (enqueue c1 n0 d1).2 d2).2) :
    (enqueue c2 (enqueue c1 n0 d1).2 d2).1 = (enqueue c1 n0 d1).1 + d1 ∧
    (enqueue c3 (enqueue c2 (enqueue c1 n0 d1).2 d2).2 d3).1 =
      (enqueue c1 n0 d1).1 + d1 + d2 := by
  simp only [enqueue] at h2 h3 ⊢
  rw [if_pos h2] at h3 ⊢
  rw [if_pos h3]
  exact ⟨rfl, by ring⟩

/-- C5 witness: three unit-duration chunks enqueued exactly at the pending
deadlines start back-to-back at t, t + 1, t + 2. -/
theorem c5_scheduling_amended_witness :
    (enqueue ((enqueue 0 0 1).2) ((enqueue 0 0 1).2) 1).1 = (enqueue 0 0 1).1 + 1 ∧
    (enqueue ((enqueue ((enqueue 0 0 1).2) ((enqueue 0 0 1).2) 1).2)
        ((enqueue ((enqueue 0 0 1).2) ((enqueue 0 0 1).2) 1).2) 1).1 =
      (enqueue 0 0 1).1 + 1 + 1 :=
  c5_scheduling_amended 0 0 ((enqueue 0 0 1).2)
    ((enqueue ((enqueue 0 0 1).2) ((enqueue 0 0 1).2) 1).2) 1 1 1
    (le_refl _) (le_refl _)

/-- C9: while the session is paused, a captured audio frame never reaches
`sendRealtimeInput` (the handler returns before forwarding); `togglePause`
flips only the paused flag and the transcript, keeping the connection and
device stream refs; and once resumed, every captured frame is forwarded
whenever the send capability is present. -/
theorem c9_pause_gating (s : SessionRefs) (now : Nat) (frame : List ℚ)
    (h : s.isPaused = true) :
    onaudioprocess s frame = none ∧
    (togglePause s now).isPaused = false ∧
    (togglePause s now).streamSet = s.streamSet ∧
    (togglePause s now).disconnectSet = s.disconnectSet ∧
    (togglePause s now).sendAudioSet = s.sendAudioSet ∧
    (s.sendAudioSet = true →
      onaudioprocess (togglePause s now) frame = some frame) := by
  refine ⟨?_, ?_, rfl, rfl, rfl, ?_⟩
  · simp [onaudioprocess, h]
  · simp [togglePause, h]
  · intro hsend
    simp [onaudioprocess, togglePause, h, hsend]

/-- C9 witness: a paused running session drops the frame; resuming flips the
flag and the same frame is then forwarded. -/
theorem c9_pause_gating_witness :
    onaudioprocess { runningRefs with isPaused := true } [] = none ∧
    (togglePause { runningRefs with isPaused := true } 4).isPaused = false ∧
    (togglePause { runningRefs with isPaused := true } 4).streamSet =
      ({ runningRefs with isPaused := true } : SessionRefs).streamSet ∧
    (togglePause { runningRefs with isPaused := true } 4).disconnectSet =
      ({ runningRefs with isPaused := true } : SessionRefs).disconnectSet ∧
    (togglePause { runningRefs with isPaused := true } 4).sendAudioSet =
      ({ runningRefs with isPaused := true } : SessionRefs).sendAudioSet ∧
    (({ runningRefs with isPaused := true } : SessionRefs).sendAudioSet = true →
      onaudioprocess (togglePause { runningRefs with isPaused := true } 4) [] =
        some []) :=
  c9_pause_gating { runningRefs with isPaused := true } 4 [] rfl

/-! ## Helper lemmas for the inbound audio decoder -/

/-- Character order transfers to code points. -/
theorem charToNat_le_of_le {a b : Char} (h : a ≤ b) : a.toNat ≤ b.toNat := by
  have h2 := UInt32.le_def.mp (Char.le_def.mp h)
  have h3 := BitVec.le_def.mp h2
  simpa [Char.toNat, UInt32.toNat] using h3

/-- Every base64 alphabet value is a sextet. -/
theorem base64CharVal_lt {c : Char} {v : Nat}
    (h : base64CharVal c = some v) : v < 64 := by
  unfold base64CharVal at h
  split_ifs at h with h1 h2 h3 h4 h5 <;> simp at h
  · have hb : c.toNat ≤ 90 := by
      have := charToNat_le_of_le h1.2
      simpa using this
    omega
  · have hb : c.toNat ≤ 122 := by
      have := charToNat_le_of_le h2.2
      simpa using this
    omega
  · have hb : c.toNat ≤ 57 := by
      have := charToNat_le_of_le h3.2
      simpa using this
    omega
  · omega
  · omega

/-- Reassembling sextets yields bytes. -/
theorem decodeSextets_lt (vs : List Nat) (h : ∀ v ∈ vs, v < 64) :
    ∀ b ∈ decodeSextets vs, b < 256 := by
  induction vs using decodeSextets.induct with
  | case1 a b c d rest ih =>
      intro x hx
      simp only [decodeSextets, List.mem_cons] at hx
      have ha : a < 64 := h a (by simp)
      have hb : b < 64 := h b (by simp)
      have hc : c < 64 := h c (by simp)
      have hd : d < 64 := h d (by simp)
      rcases hx with rfl | rfl | rfl | hx
      · omega
      · omega
      · omega
      · exact ih (fun v hv => h v (by simp [hv])) x hx
  | case2 a b c =>
      intro x hx
      have ha : a < 64 := h a (by simp)
      have hb : b < 64 := h b (by simp)
      have hc : c < 64 := h c (by simp)
      simp only [decodeSextets, List.mem_cons] at hx
      rcases hx with rfl | rfl | hx
      · omega
      · omega
      · simp at hx
  | case3 a b =>
      intro x hx
      have ha : a < 64 := h a (by simp)
      have hb : b < 64 := h b (by simp)
      simp only [decodeSextets, List.mem_cons] at hx
      rcases hx with rfl | hx
      · omega
      · simp at hx
  | case4 a =>
      intro x hx
      simp [decodeSextets] at hx
  | case5 =>
      intro x hx
      simp [decodeSextets] at hx

/-- The table lookup only produces sextets. -/
theorem base64Vals_lt {cs : List Char} {vs : List Nat}
    (h : base64Vals cs = some vs) : ∀ v ∈ vs, v < 64 := by
  induction cs generalizing vs with
  | nil =>
      simp only [base64Vals, Option.some.injEq] at h
      subst h
      simp
  | cons c cs ih =>
      simp only [base64Vals] at h
      cases hc : base64CharVal c with
      | none => rw [hc] at h; cases h
      | some v =>
          rw [hc] at h
          cases hrest : base64Vals cs with
          | none => rw [hrest] at h; cases h
          | some ws =>
              rw [hrest] at h
              simp only [Option.some.injEq] at h
              subst h
              intro x hx
              rcases List.mem_cons.mp hx with rfl | hx
              · exact base64CharVal_lt hc
              · exact ih hrest x hx

/-- The decoding core of `atob` only produces bytes. -/
theorem atobCore_lt {cs : List Char} {bytes : List Nat}
    (h : (if cs.length % 4 = 1 then none else
          match base64Vals cs with
          | some vals => some (decodeSextets vals)
          | none => none) = some bytes) :
    ∀ b ∈ bytes, b < 256 := by
  split at h
  · cases h
  · cases hvals : base64Vals cs with
    | none => rw [hvals] at h; cases h
    | some vals =>
        rw [hvals] at h
        simp only [Option.some.injEq] at h
        subst h
        exact decodeSextets_lt vals (base64Vals_lt hvals)

/-- Every value `atob` outputs is a byte. -/
theorem atob_bytes_lt {s : String} {bytes : List Nat}
    (h : atob s = some bytes) : ∀ b ∈ bytes, b < 256 := by
  unfold atob at h
  exact atobCore_lt h

/-- Little-endian 16-bit reinterpretation of a byte list stays within the
signed 16-bit range. -/
theorem bytesToInt16_bounds (bs : List Nat) (h : ∀ b ∈ bs, b < 256) :
    ∀ i ∈ bytesToInt16 bs, -32768 ≤ i ∧ i ≤ 32767 := by
  induction bs using bytesToInt16.induct with
  | case1 lo hi rest ih =>
      intro i hmem
      have hlo : lo < 256 := h lo (by simp)
      have hhi : hi < 256 := h hi (by simp)
      simp only [bytesToInt16, List.mem_cons] at hmem
      rcases hmem with rfl | hmem
      · by_cases hv : lo + 256 * hi < 32768
        · rw [if_pos hv]
          constructor <;> omega
        · rw [if_neg hv]
          constructor <;> omega
      · exact ih (fun b hb => h b (by simp [hb])) i hmem
  | case2 bs hne =>
      intro i hmem
      simp [bytesToInt16] at hmem

/-- C7: decoding a well-formed base64 chunk whose byte payload has even
length succeeds and yields samples all within [-1, 1] at the fixed 24 kHz
output rate; malformed base64 fails with the malformed-base64 decode error,
and an odd-length payload fails with the odd-byte-length decode error. -/
theorem c7_decodeInbound (b64 : String) :
    (∀ bytes, atob b64 = some bytes → bytes.length % 2 = 0 →
      ∃ samples, decodeInbound b64 = Except.ok samples ∧
        outputSampleRateHz = 24000 ∧
        ∀ x ∈ samples, -1 ≤ x ∧ x ≤ 1) ∧
    (atob b64 = none →
      decodeInbound b64 = Except.error DecodeError.malformedBase64) ∧
    (∀ bytes, atob b64 = some bytes → bytes.length % 2 ≠ 0 →
      decodeInbound b64 = Except.error DecodeError.oddByteLength) := by
  refine ⟨?_, ?_, ?_⟩
  · intro bytes hb heven
    refine ⟨(bytesToInt16 bytes).map (fun (i : Int) => (i : ℚ) / 32768), ?_, rfl, ?_⟩
    · simp [decodeInbound, hb, heven]
    · intro x hx
      obtain ⟨n, hn, rfl⟩ := List.mem_map.mp hx
      have hbound := bytesToInt16_bounds bytes (atob_bytes_lt hb) n hn
      have h1 : ((-32768 : Int) : ℚ) ≤ (n : ℚ) := by exact_mod_cast hbound.1
      have h2 : (n : ℚ) ≤ ((32767 : Int) : ℚ) := by exact_mod_cast hbound.2
      constructor
      · rw [le_div_iff₀ (by norm_num : (0:ℚ) < 32768)]
        push_cast at h1 ⊢
        linarith
      · rw [div_le_one₀ (by norm_num : (0:ℚ) < 32768)]
        push_cast at h2 ⊢
        linarith
  · intro hb
    simp [decodeInbound, hb]
  · intro bytes hb hodd
    simp [decodeInbound, hb, hodd]

/-- C7 witness: "AP8=" decodes to the single sample -256/32768 within
bounds; "!!" is malformed; "AA==" decodes to one byte, an odd payload. -/
theorem c7_decodeInbound_witness :
    (atob "AP8=" = some [0, 255] ∧ ([0, 255] : List Nat).length % 2 = 0 ∧
      ∃ samples, decodeInbound "AP8=" = Except.ok samples ∧
        outputSampleRateHz = 24000 ∧ ∀ x ∈ samples, -1 ≤ x ∧ x ≤ 1) ∧
    (atob "!!" = none ∧
      decodeInbound "!!" = Except.error DecodeError.malformedBase64) ∧
    (atob "AA==" = some [0] ∧
      decodeInbound "AA==" = Except.error DecodeError.oddByteLength) :=
  ⟨⟨by decide, by decide,
    (c7_decodeInbound "AP8=").1 [0, 255] (by decide) (by decide)⟩,
   ⟨by decide, (c7_decodeInbound "!!").2.1 (by decide)⟩,
   ⟨by decide, (c7_decodeInbound "AA==").2.2 [0] (by decide) (by decide)⟩⟩
